import Mathlib

/-!
Shallow embedding of `src/directorywalker.py` (class `DirectoryWalker`).

The embedding models:
* the subset of Python `re` used by the source (`re.compile`, `Pattern.search`)
  as an executable regex abstract syntax, matcher, and pattern-string
  compiler (`Re.compile`);
* `pathlib.Path.suffix` (`pathSuffix`);
* the filesystem observed during a call, as a finite tree of directories
  (`FSDir`) whose `listable` flag records whether `Path.iterdir` succeeds on
  that directory (false models "permission denied" or "removed between
  enumeration and scan");
* the class itself: `DirectoryWalker` (compiled state),
  `DirectoryWalker.init` (the constructor `__init__`),
  `DirectoryWalker.should_traverse`, `DirectoryWalker.process_folder`, and
  `DirectoryWalker.find_matching_files`.  The nondeterministic completion
  order of `concurrent.futures.as_completed` is an explicit parameter
  `order`, constrained in theorems to be a permutation of the submitted
  tasks.
-/

/-- Regex abstract syntax for the subset of Python `re` that the source can
feed to `re.compile`: literals, escaped literals, `.`, character classes,
`*` `+` `?` quantifiers, alternation, grouping, and the `^` `$` anchors. -/
inductive Regex : Type where
  | emptyR : Regex
  | lit : Char → Regex
  | anyChar : Regex
  | cls : List (Char × Char) → Bool → Regex
  | star : Regex → Regex
  | cat : Regex → Regex → Regex
  | alt : Regex → Regex → Regex
  | bol : Regex
  | eol : Regex

deriving Repr, DecidableEq

deriving instance DecidableEq for Except

/-- Membership of a character in a character class given as ranges plus a
negation flag. -/
def inClass (ranges : List (Char × Char)) (neg : Bool) (c : Char) : Bool :=
  let hit := ranges.any (fun r => r.1 ≤ c && c ≤ r.2)
  if neg then !hit else hit

/-- Structural size of a regex, used to budget matcher fuel. -/
def Regex.size : Regex → Nat
  | .emptyR => 1
  | .lit _ => 1
  | .anyChar => 1
  | .cls _ _ => 1
  | .bol => 1
  | .eol => 1
  | .star r => r.size + 1
  | .cat a b => a.size + b.size + 1
  | .alt a b => a.size + b.size + 1

/-- Fuel-indexed CPS matcher.  `at0` is true exactly at position 0 of the
subject string (Python `^` without `MULTILINE` matches only there); `$` is
modelled as end of subject.  `.` does not match a newline, as in Python
without `DOTALL`.  A `star` iteration continues only when it consumed at
least one character, matching the language of the regex. -/
def acceptFuel : Nat → Regex → Bool → List Char → (Bool → List Char → Bool) → Bool
  | 0, _, _, _, _ => false
  | Nat.succ f, r, at0, s, k =>
    match r with
    | .emptyR => k at0 s
    | .lit c =>
      match s with
      | [] => false
      | c2 :: rest => c == c2 && k false rest
    | .anyChar =>
      match s with
      | [] => false
      | c2 :: rest => (c2 != '\n') && k false rest
    | .cls ranges neg =>
      match s with
      | [] => false
      | c2 :: rest => inClass ranges neg c2 && k false rest
    | .star r1 =>
      k at0 s ||
        acceptFuel f r1 at0 s (fun at2 s2 =>
          decide (s2.length < s.length) && acceptFuel f (.star r1) at2 s2 k)
    | .cat r1 r2 =>
      acceptFuel f r1 at0 s (fun at2 s2 => acceptFuel f r2 at2 s2 k)
    | .alt r1 r2 => acceptFuel f r1 at0 s k || acceptFuel f r2 at0 s k
    | .bol => at0 && k at0 s
    | .eol => s.isEmpty && k at0 s

/-- Does the regex match some prefix of `s`, where `at0` says whether `s`
starts at position 0 of the subject? -/
def Regex.matchAt (r : Regex) (at0 : Bool) (s : List Char) : Bool :=
  acceptFuel ((s.length + 1) * (r.size + 1) + 8) r at0 s (fun _ _ => true)

/-- Model of Python `Pattern.search`: unanchored scan, trying every start
position in the subject. -/
def Regex.search (r : Regex) (s : String) : Bool :=
  let cs := s.toList
  (List.range (cs.length + 1)).any (fun i => r.matchAt (i == 0) (cs.drop i))

/-- `\d` `\w` `\s` and their negations, as character classes. -/
def escClass (c : Char) : Option (List (Char × Char) × Bool) :=
  let digits : List (Char × Char) := [('0', '9')]
  let words : List (Char × Char) := [('0', '9'), ('A', 'Z'), ('a', 'z'), ('_', '_')]
  let spaces : List (Char × Char) :=
    [(' ', ' '), ('\t', '\t'), ('\n', '\n'), ('\x0b', '\x0b'), ('\x0c', '\x0c'),
      ('\r', '\r')]
  if c == 'd' then some (digits, false)
  else if c == 'D' then some (digits, true)
  else if c == 'w' then some (words, false)
  else if c == 'W' then some (words, true)
  else if c == 's' then some (spaces, false)
  else if c == 'S' then some (spaces, true)
  else none

/-- Parse the body of a `[...]` character class, after any `^`. -/
def parseClassItems : Nat → List Char → Except String (List (Char × Char) × List Char)
  | 0, _ => .error "pattern too deep"
  | Nat.succ f, s =>
    match s with
    | [] => .error "unterminated character set"
    | ']' :: rest => .ok ([], rest)
    | '\\' :: [] => .error "bad escape (end of pattern)"
    | '\\' :: c :: rest =>
      (parseClassItems f rest).map (fun it => ((c, c) :: it.1, it.2))
    | a :: '-' :: b :: rest =>
      if b == ']' then .ok ([(a, a), ('-', '-')], rest)
      else (parseClassItems f rest).map (fun it => ((a, b) :: it.1, it.2))
    | a :: rest => (parseClassItems f rest).map (fun it => ((a, a) :: it.1, it.2))

/-- Attach at most one quantifier (`*`, `+`, `?`, optionally lazy `·?`) to a
parsed atom; a second quantifier is the Python error `multiple repeat`. -/
def quantTail (a : Regex) (s : List Char) : Except String (Regex × List Char) :=
  let afterQ : Regex → List Char → Except String (Regex × List Char) := fun q r =>
    match r with
    | '?' :: r2 =>
      match r2 with
      | '*' :: _ => .error "multiple repeat"
      | '+' :: _ => .error "multiple repeat"
      | '?' :: _ => .error "multiple repeat"
      | _ => .ok (q, r2)
    | '*' :: _ => .error "multiple repeat"
    | '+' :: _ => .error "multiple repeat"
    | _ => .ok (q, r)
  match s with
  | '*' :: r => afterQ (Regex.star a) r
  | '+' :: r => afterQ (Regex.cat a (Regex.star a)) r
  | '?' :: r => afterQ (Regex.alt a Regex.emptyR) r
  | _ => .ok (a, s)

mutual

/-- Parse one atom of a pattern. -/
def parseAtom : Nat → List Char → Except String (Regex × List Char)
  | 0, _ => .error "pattern too deep"
  | Nat.succ f, s =>
    match s with
    | [] => .error "nothing to repeat"
    | '(' :: rest =>
      match parseAlt f rest with
      | .error e => .error e
      | .ok (r, rest2) =>
        match rest2 with
        | ')' :: rest3 => .ok (r, rest3)
        | _ => .error "missing ), unterminated subpattern"
    | '[' :: '^' :: rest =>
      (parseClassItems (Nat.succ f) rest).map (fun it => (Regex.cls it.1 true, it.2))
    | '[' :: rest =>
      (parseClassItems (Nat.succ f) rest).map (fun it => (Regex.cls it.1 false, it.2))
    | '\\' :: [] => .error "bad escape (end of pattern)"
    | '\\' :: c :: rest =>
      match escClass c with
      | some cl => .ok (Regex.cls cl.1 cl.2, rest)
      | none => .ok (Regex.lit c, rest)
    | '.' :: rest => .ok (Regex.anyChar, rest)
    | '^' :: rest => .ok (Regex.bol, rest)
    | '$' :: rest => .ok (Regex.eol, rest)
    | '*' :: _ => .error "nothing to repeat"
    | '+' :: _ => .error "nothing to repeat"
    | '?' :: _ => .error "nothing to repeat"
    | c :: rest => .ok (Regex.lit c, rest)

/-- Parse a concatenation, stopping at `)`, `|`, or the end. -/
def parseSeq : Nat → List Char → Except String (Regex × List Char)
  | 0, _ => .error "pattern too deep"
  | Nat.succ f, s =>
    match s with
    | [] => .ok (Regex.emptyR, [])
    | ')' :: rest => .ok (Regex.emptyR, ')' :: rest)
    | '|' :: rest => .ok (Regex.emptyR, '|' :: rest)
    | _ =>
      match parseAtom f s with
      | .error e => .error e
      | .ok (a, rest2) =>
        match quantTail a rest2 with
        | .error e => .error e
        | .ok (piece, rest3) =>
          match parseSeq f rest3 with
          | .error e => .error e
          | .ok (r2, rest4) => .ok (Regex.cat piece r2, rest4)

/-- Parse an alternation. -/
def parseAlt : Nat → List Char → Except String (Regex × List Char)
  | 0, _ => .error "pattern too deep"
  | Nat.succ f, s =>
    match parseSeq f s with
    | .error e => .error e
    | .ok (r, rest) =>
      match rest with
      | '|' :: rest2 =>
        match parseAlt f rest2 with
        | .error e => .error e
        | .ok (r2, rest3) => .ok (Regex.alt r r2, rest3)
      | _ => .ok (r, rest)

end

/-- Model of `re.compile`: parse the whole pattern string; any unconsumed
input can only start with an unmatched `)`. -/
def Re.compile (pat : String) : Except String Regex :=
  let cs := pat.toList
  match parseAlt (cs.length * 4 + 16) cs with
  | .error e => .error e
  | .ok (r, []) => .ok r
  | .ok (_, _ :: _) => .error "unbalanced parenthesis"

/-- Last index of `'.'` in a character list (CPython `str.rfind`), if any. -/
def rfindDot (cs : List Char) : Option Nat :=
  (List.range cs.length).foldl
    (fun acc i => if cs.getD i ' ' == '.' then some i else acc) none

/-- Model of `pathlib.PurePath.suffix` on a file name: CPython returns
`name[i:]` where `i = name.rfind('.')` when `0 < i < len(name) - 1`, and
`""` otherwise. -/
def pathSuffix (name : String) : String :=
  let cs := name.toList
  match rfindDot cs with
  | none => ""
  | some i => if 0 < i && i < cs.length - 1 then String.mk (cs.drop i) else ""

/-- A directory tree as observed during one `find_matching_files` call.
`listable` records whether `Path.iterdir` succeeds on the directory; `false`
models permission denied, or the directory being removed between enumeration
and scan.  `files` are the names of the regular-file entries; non-regular
entries other than subdirectories are not modelled (the source ignores every
entry with `is_file() == False`, and subdirectories are exactly such
entries). -/
inductive FSDir : Type where
  | node : String → List FSDir → List String → Bool → FSDir

deriving Repr

/-- Base name of the directory (`Path.name`). -/
def FSDir.name : FSDir → String
  | .node n _ _ _ => n

/-- Immediate subdirectories. -/
def FSDir.subdirs : FSDir → List FSDir
  | .node _ s _ _ => s

/-- Names of the immediate regular-file entries. -/
def FSDir.files : FSDir → List String
  | .node _ _ f _ => f

/-- Whether `Path.iterdir` succeeds on this directory. -/
def FSDir.listable : FSDir → Bool
  | .node _ _ _ b => b

/-- One entry produced by `Path.iterdir`. -/
inductive DirEntry : Type where
  | file : String → DirEntry
  | dir : String → DirEntry

deriving Repr, DecidableEq

/-- A directory handed to a worker: its absolute path (as components) and its
observed contents.  This models the `Path` object bound to one submitted
future. -/
abbrev ScanTask := List String × FSDir

/-- Render an absolute path from components; stands in for
`str(Path.resolve())`. -/
def renderPath (components : List String) : String :=
  String.intercalate "/" components

mutual

/-- The directories yielded by `base_path.rglob('*')` that pass the
`folder.is_dir()` test in the source: every strict descendant directory of
the base, in depth-first preorder, paired with its path.  `rglob('*')` does
not yield the base directory itself. -/
def rglobDirs (path : List String) : FSDir → List ScanTask
  | .node _ subs _ _ => rglobList path subs

/-- Enumeration of a list of sibling subdirectories for `rglobDirs`. -/
def rglobList (path : List String) : List FSDir → List ScanTask
  | [] => []
  | d :: rest =>
    ((path ++ [d.name], d) :: rglobDirs (path ++ [d.name]) d) ++ rglobList path rest

end

/-- Error raised by `Path.iterdir` when a directory cannot be listed
(`PermissionError`, `FileNotFoundError`, `OSError`). -/
inductive OsError : Type where
  | cannotList : List String → OsError

deriving Repr, DecidableEq

/-- Model of `Path.iterdir` on the directory at `path`: the regular-file
entries followed by the subdirectory entries, or an `OSError` when the
directory cannot be listed. -/
def FSDir.iterdir (d : FSDir) (path : List String) : Except OsError (List DirEntry) :=
  if d.listable then
    .ok (d.files.map DirEntry.file ++ d.subdirs.map (fun c => DirEntry.dir c.name))
  else
    .error (OsError.cannotList path)

/-- A message sent to the logger by `find_matching_files`: the periodic
"Progress: X/Y folders processed." message, or the final
"File matching completed." message. -/
inductive LogEvent : Type where
  | progress : Nat → Nat → LogEvent
  | completed : LogEvent

deriving Repr, DecidableEq

/-- The compiled state of a `DirectoryWalker` instance after `__init__`:
`base_path` (a `Path`), the compiled patterns, the resolved thread count and
the logging flag.  The `logger` attribute is represented by
`logging_enabled` alone, since `self.log` fires iff `logging_enabled` (the
`logger` is `None` exactly when `logging_enabled` is false). -/
structure DirectoryWalker : Type where
  base_path : String
  folder_patterns : List Regex
  file_pattern : Regex
  extension_pattern : Option Regex
  threads : Int
  logging_enabled : Bool

deriving Repr, DecidableEq

/-- Compile a list of pattern strings in order, propagating the first
`re.error` (models the list comprehension
`[re.compile(pattern) for pattern in folder_patterns]`). -/
def compileAll : List String → Except String (List Regex)
  | [] => .ok []
  | p :: rest =>
    match Re.compile p with
    | .error e => .error e
    | .ok r => (compileAll rest).map (fun rs => r :: rs)

/-- Python `x or d` on the `threads` argument: `None` and `0` are falsy and
select the default; any other integer is kept. -/
def pyOrInt (v : Option Int) (d : Int) : Int :=
  match v with
  | none => d
  | some n => if n = 0 then d else n

/-- Model of `DirectoryWalker.__init__`.  `cpuCount` is the value of
`os.cpu_count()`.  The constructor converts the base path (no filesystem
access, no validation), compiles the folder patterns, the file pattern and
the optional extension pattern — the only failures it can raise are the
`re.error`s of those compilations — and resolves
`threads or max(os.cpu_count() - 2, 1)`.  The `logging.basicConfig` call is
a logger-configuration side effect with no bearing on the result. -/
def DirectoryWalker.init (cpuCount : Int) (base_path : String)
    (folder_patterns : List String) (file_pattern : String)
    (extension_pattern : Option String) (threads : Option Int)
    (logging_enabled : Bool) : Except String DirectoryWalker :=
  match compileAll folder_patterns with
  | .error e => .error e
  | .ok fps =>
    match Re.compile file_pattern with
    | .error e => .error e
    | .ok fp =>
      let ext : Except String (Option Regex) :=
        match extension_pattern with
        | none => .ok none
        | some s => (Re.compile s).map some
      match ext with
      | .error e => .error e
      | .ok ep =>
        .ok ⟨base_path, fps, fp, ep, pyOrInt threads (max (cpuCount - 2) 1),
          logging_enabled⟩

/-- `DirectoryWalker.__init__` with the source's declared default arguments
applied: `extension_pattern=r"\.txt$"`, `threads=None`,
`logging_enabled=True`.  This is what a call that omits those parameters
gets. -/
def DirectoryWalker.initDefaults (cpuCount : Int) (base_path : String)
    (folder_patterns : List String) (file_pattern : String) :
    Except String DirectoryWalker :=
  DirectoryWalker.init cpuCount base_path folder_patterns file_pattern
    (some "\\.txt$") none true

/-- Model of `DirectoryWalker.should_traverse`: true iff any compiled folder
pattern `search`-matches the folder's base name. -/
def DirectoryWalker.should_traverse (w : DirectoryWalker) (folder : FSDir) : Bool :=
  w.folder_patterns.any (fun pattern => pattern.search folder.name)

/-- Model of `DirectoryWalker.process_folder`: iterate the folder's entries;
for each entry that is a regular file, require the file pattern to
`search`-match the name and, when an extension pattern is present, to
`search`-match `file.suffix`; collect `str(file.resolve())` for the matches.
A failing `iterdir` raises, which the source does not catch. -/
def DirectoryWalker.process_folder (w : DirectoryWalker) (path : List String)
    (folder : FSDir) : Except OsError (List String) :=
  match folder.iterdir path with
  | .error e => .error e
  | .ok entries =>
    .ok (entries.filterMap (fun entry =>
      match entry with
      | .dir _ => none
      | .file name =>
        let file_match := w.file_pattern.search name
        let extension_match :=
          match w.extension_pattern with
          | none => true
          | some pattern => pattern.search (pathSuffix name)
        if file_match && extension_match then some (renderPath (path ++ [name]))
        else none))

/-- The two `rglob` walks of `find_matching_files`, on the filesystem
observed during the call.  `none` models a base path that does not exist:
CPython's `glob` machinery swallows the scandir error there, yielding no
entries at all. -/
def rglobRoot (w : DirectoryWalker) (root : Option FSDir) : List ScanTask :=
  match root with
  | none => []
  | some r => rglobDirs [w.base_path] r

/-- The directories submitted to the pool: the `rglob('*')` survivors of
`folder.is_dir() and self.should_traverse(folder)`.  Both walks of the
source compute this same list from the same observed tree. -/
def DirectoryWalker.eligibleDirs (w : DirectoryWalker) (root : Option FSDir) :
    List ScanTask :=
  (rglobRoot w root).filter (fun t => w.should_traverse t.2)

/-- The `as_completed` collection loop of `find_matching_files`: drain the
futures in completion order; `future.result()` re-raises a worker's
exception, which aborts the loop (and the surrounding call); otherwise
extend `matched_files`, bump `processed_folders`, and when
`processed_folders % max(1, total_folders // 10) == 0` log one progress
message. -/
def collectLoop (w : DirectoryWalker) (total : Nat) :
    List ScanTask → Nat → List String → List LogEvent →
    Except OsError (List String × List LogEvent)
  | [], _, acc, evs => .ok (acc, evs)
  | t :: rest, processed, acc, evs =>
    let p := processed + 1
    match w.process_folder t.1 t.2 with
    | .error e => .error e
    | .ok files =>
      let evs2 :=
        if w.logging_enabled && p % max 1 (total / 10) == 0 then
          evs ++ [LogEvent.progress p total]
        else evs
      collectLoop w total rest p (acc ++ files) evs2

/-- What one successful completion of `find_matching_files` returns, plus
the messages it logged. -/
structure RunResult : Type where
  matched : List String
  events : List LogEvent

deriving Repr, DecidableEq

/-- Model of `DirectoryWalker.find_matching_files`.  `root` is the tree
observed at the base path (`none` when the base path does not exist);
`order` is the completion order in which `as_completed` yields the submitted
futures — a permutation of `eligibleDirs`, supplied as an explicit
parameter because it is scheduler-chosen.  `total_folders` comes from the
first `rglob` walk, the submitted futures from the second, over the same
observed tree.  An exception re-raised by `future.result()` propagates out
of the call (the final completion log is never reached). -/
def DirectoryWalker.find_matching_files (w : DirectoryWalker) (root : Option FSDir)
    (order : List ScanTask) : Except OsError RunResult :=
  let total := (w.eligibleDirs root).length
  match collectLoop w total order 0 [] [] with
  | .error e => .error e
  | .ok (files, evs) =>
    .ok ⟨files, evs ++ (if w.logging_enabled then [LogEvent.completed] else [])⟩

/-- Reference model from the spec (§4.1 `matchesFile`): the file-name
pattern matches AND the extension predicate is absent or matches the file's
dot-inclusive extension. -/
def specMatchesFile (w : DirectoryWalker) (name : String) : Bool :=
  w.file_pattern.search name &&
    (match w.extension_pattern with
     | none => true
     | some pattern => pattern.search (pathSuffix name))

/-- Reference model from the spec (§4.3 `FolderScanner.scan`): the matched
absolute paths of the immediate regular-file entries of one directory. -/
def seqScanFolder (w : DirectoryWalker) (path : List String) (d : FSDir) : List String :=
  d.files.filterMap (fun name =>
    if specMatchesFile w name then some (renderPath (path ++ [name])) else none)

mutual

/-- Reference model from the spec (§8, first property): the purely
sequential traversal — visit every directory of the tree; scan the files
of exactly those whose name passes the folder predicate; recursion is never
gated by the predicate. -/
def seqTraverse (w : DirectoryWalker) (path : List String) : FSDir → List String
  | .node _ subs _ _ => seqTraverseList w path subs

/-- Sequential reference traversal of a list of sibling directories. -/
def seqTraverseList (w : DirectoryWalker) (path : List String) : List FSDir → List String
  | [] => []
  | d :: rest =>
    (if w.should_traverse d then seqScanFolder w (path ++ [d.name]) d else []) ++
      seqTraverse w (path ++ [d.name]) d ++ seqTraverseList w path rest

end

/-- Reference model from the spec: the sequential `findMatchingFiles`. -/
def seqFindMatchingFiles (w : DirectoryWalker) (root : Option FSDir) : List String :=
  match root with
  | none => []
  | some r => seqTraverse w [w.base_path] r

/-- The list a successful `process_folder` returns on this task. -/
def okFiles (w : DirectoryWalker) (t : ScanTask) : List String :=
  match w.process_folder t.1 t.2 with
  | .ok l => l
  | .error _ => []

/-- The progress messages logged while draining `k` successful completions,
the first of which is completion number `c + 1` out of `total`. -/
def eventsFrom (w : DirectoryWalker) (total : Nat) : Nat → Nat → List LogEvent
  | _, 0 => []
  | c, Nat.succ k =>
    (if w.logging_enabled && (c + 1) % max 1 (total / 10) == 0 then
      [LogEvent.progress (c + 1) total]
    else []) ++ eventsFrom w total (c + 1) k

/-- Build the walker a successful construction returns, for concrete
examples (the fallback value is irrelevant: the accompanying equations show
construction succeeds). -/
def mkWalker (cpuCount : Int) (base_path : String) (folder_patterns : List String)
    (file_pattern : String) (extension_pattern : Option String)
    (threads : Option Int) (logging_enabled : Bool) : DirectoryWalker :=
  match DirectoryWalker.init cpuCount base_path folder_patterns file_pattern
      extension_pattern threads logging_enabled with
  | .ok w => w
  | .error _ => ⟨base_path, [], Regex.emptyR, none, 1, logging_enabled⟩

/-- The spec's §8 example configuration: base `/root`, folder pattern
`^data$`, file pattern `.*`, no extension filter. -/
def wC4 : DirectoryWalker := mkWalker 4 "/root" ["^data$"] ".*" none none false

/-- The spec's §8 example tree: `/root/misc/data/a.txt`, where `misc`
matches no folder pattern but its child `data` does. -/
def treeC4 : FSDir :=
  .node "root" [.node "misc" [.node "data" [] ["a.txt"] true] [] true] [] true

/-- Configuration for the refinement witness: folder pattern `data`
(unanchored), all files, no extension filter, logging on. -/
def wC5 : DirectoryWalker := mkWalker 4 "/srv" ["data"] ".*" none none true

/-- Tree with two eligible folders at different depths for the refinement
witness. -/
def treeC5 : FSDir :=
  .node "srv"
    [.node "data1" [] ["a.txt", "b.md"] true,
     .node "tmp" [.node "mydata" [] ["c.txt"] true] [] true]
    [] true

/-- Configuration for the C6 witness: extension pattern `\.py$`. -/
def wC6 : DirectoryWalker := mkWalker 4 "/base" ["data"] ".*" (some "\\.py$") none false

/-- Configuration with an empty folder-pattern list. -/
def wC7 : DirectoryWalker := mkWalker 4 "/r" [] ".*" none none true

/-- Configuration for the failure-isolation claims. -/
def wC1 : DirectoryWalker := mkWalker 4 "/root" ["data"] ".*" none none false

/-- Tree in which `data2` stops being listable between enumeration and scan
while its sibling `data1` holds a matching file. -/
def treeC1 : FSDir :=
  .node "root"
    [.node "data1" [] ["a.txt"] true, .node "data2" [] ["b.txt"] false]
    [] true

/-- Tree for the extension-default counterexample: one eligible folder
holding `a.log`, whose name matches the file pattern `.*`. -/
def tree3 : FSDir := .node "b" [.node "data" [] ["a.log"] true] [] true

/-- The walker built with the default arguments applied. -/
def wDef : DirectoryWalker := mkWalker 4 "/b" ["data"] ".*" (some "\\.txt$") none true

/-- The walker built with an explicit `None` extension pattern. -/
def wNone : DirectoryWalker := mkWalker 4 "/b" ["data"] ".*" none none true

/-- Walker with `threads=0`. -/
def wT0 : DirectoryWalker := mkWalker 6 "/r" ["data"] ".*" none (some 0) false

/-- Walker with `threads=None`. -/
def wTN : DirectoryWalker := mkWalker 6 "/r" ["data"] ".*" none none false

/-- Walker with `threads=7`. -/
def wT7 : DirectoryWalker := mkWalker 6 "/r" ["data"] ".*" none (some 7) false

theorem process_folder_ok (w : DirectoryWalker) (t : ScanTask)
    (h : t.2.listable = true) :
    w.process_folder t.1 t.2 = .ok (seqScanFolder w t.1 t.2) := by
  cases t with
  | mk path d =>
    cases d with
    | node nm subs fs b =>
      simp only [FSDir.listable] at h
      subst h
      simp [DirectoryWalker.process_folder, FSDir.iterdir, FSDir.listable,
        FSDir.files, FSDir.subdirs, seqScanFolder, specMatchesFile,
        List.filterMap_append, List.filterMap_map, Function.comp_def]

theorem okFiles_eq (w : DirectoryWalker) (t : ScanTask) (h : t.2.listable = true) :
    okFiles w t = seqScanFolder w t.1 t.2 := by
  simp [okFiles, process_folder_ok w t h]

theorem process_folder_err (w : DirectoryWalker) (t : ScanTask)
    (h : t.2.listable = false) :
    w.process_folder t.1 t.2 = .error (OsError.cannotList t.1) := by
  cases t with
  | mk path d =>
    cases d with
    | node nm subs fs b =>
      simp only [FSDir.listable] at h
      subst h
      simp [DirectoryWalker.process_folder, FSDir.iterdir, FSDir.listable]

theorem collectLoop_ok (w : DirectoryWalker) (total : Nat) :
    ∀ (order : List ScanTask), (∀ t ∈ order, t.2.listable = true) →
    ∀ (processed : Nat) (acc : List String) (evs : List LogEvent),
    collectLoop w total order processed acc evs =
      .ok (acc ++ order.flatMap (okFiles w),
        evs ++ eventsFrom w total processed order.length) := by
  intro order
  induction order with
  | nil => intro _ processed acc evs; simp [collectLoop, eventsFrom]
  | cons t rest ih =>
    intro h processed acc evs
    have ht : t.2.listable = true := h t (by simp)
    have hrest : ∀ u ∈ rest, u.2.listable = true := fun u hu => h u (by simp [hu])
    simp only [collectLoop, process_folder_ok w t ht]
    rw [ih hrest]
    simp only [List.flatMap_cons, List.length_cons, eventsFrom,
      okFiles_eq w t ht]
    by_cases hc : (w.logging_enabled && (processed + 1) % max 1 (total / 10) == 0) = true
    · simp only [if_pos hc]
      simp [List.append_assoc]
    · simp only [if_neg hc]
      simp [List.append_assoc]

theorem collectLoop_err (w : DirectoryWalker) (total : Nat) :
    ∀ (order : List ScanTask) (t : ScanTask), t ∈ order → t.2.listable = false →
    ∀ (processed : Nat) (acc : List String) (evs : List LogEvent),
    ∃ e, collectLoop w total order processed acc evs = .error e := by
  intro order
  induction order with
  | nil => intro t ht; simp at ht
  | cons u rest ih =>
    intro t ht hfail processed acc evs
    rcases List.mem_cons.mp ht with heq | hmem
    · subst heq
      exact ⟨OsError.cannotList t.1, by
        simp [collectLoop, process_folder_err w t hfail]⟩
    · cases hu : w.process_folder u.1 u.2 with
      | error e => exact ⟨e, by simp [collectLoop, hu]⟩
      | ok files =>
        obtain ⟨e, he⟩ := ih t hmem hfail (processed + 1) (acc ++ files)
          (if w.logging_enabled && (processed + 1) % max 1 (total / 10) == 0 then
            evs ++ [LogEvent.progress (processed + 1) total] else evs)
        exact ⟨e, by simp only [collectLoop, hu]; exact he⟩

theorem eventsFrom_range (w : DirectoryWalker) (total : Nat) :
    ∀ (k c : Nat), eventsFrom w total c k =
      (List.range k).filterMap (fun i =>
        if w.logging_enabled && (c + i + 1) % max 1 (total / 10) == 0 then
          some (LogEvent.progress (c + i + 1) total)
        else none) := by
  intro k
  induction k with
  | zero => intro c; simp [eventsFrom]
  | succ k ih =>
    intro c
    rw [List.range_succ_eq_map]
    simp only [eventsFrom, List.filterMap_cons, List.filterMap_map, ih (c + 1)]
    have harith : ∀ i : Nat, c + 1 + i + 1 = c + (i + 1) + 1 := by omega
    by_cases hc : (w.logging_enabled && (c + 0 + 1) % max 1 (total / 10) == 0) = true
    · simp only [Nat.add_zero] at hc
      simp [hc, Function.comp_def, harith, Nat.succ_eq_add_one]
    · simp only [Nat.add_zero] at hc
      simp [eq_false_intro hc, Function.comp_def, harith, Nat.succ_eq_add_one]

theorem rglob_seq_aux (w : DirectoryWalker) : ∀ n : Nat,
    (∀ d : FSDir, sizeOf d ≤ n → ∀ p : List String,
      ((rglobDirs p d).filter (fun t => w.should_traverse t.2)).flatMap
        (fun t => seqScanFolder w t.1 t.2) = seqTraverse w p d) ∧
    (∀ l : List FSDir, sizeOf l ≤ n → ∀ p : List String,
      ((rglobList p l).filter (fun t => w.should_traverse t.2)).flatMap
        (fun t => seqScanFolder w t.1 t.2) = seqTraverseList w p l) := by
  intro n
  induction n with
  | zero =>
    constructor
    · intro d hd
      cases d with
      | node nm subs fs b => simp at hd
    · intro l hl
      cases l with
      | nil => intro p; simp [rglobList, seqTraverseList]
      | cons d rest => simp at hl
  | succ n ih =>
    constructor
    · intro d hd p
      cases d with
      | node nm subs fs b =>
        have hsub : sizeOf subs ≤ n := by simp at hd; omega
        show ((rglobList p subs).filter (fun t => w.should_traverse t.2)).flatMap
          (fun t => seqScanFolder w t.1 t.2) = seqTraverseList w p subs
        exact ih.2 subs hsub p
    · intro l hl p
      cases l with
      | nil => simp [rglobList, seqTraverseList]
      | cons d rest =>
        have hd : sizeOf d ≤ n := by simp at hl; omega
        have hrest : sizeOf rest ≤ n := by simp at hl; omega
        simp only [rglobList, seqTraverseList, List.filter_append,
          List.flatMap_append, List.filter_cons]
        by_cases hc : w.should_traverse d = true
        · simp [hc, ih.1 d hd, ih.2 rest hrest]
        · simp [hc, ih.1 d hd, ih.2 rest hrest]

theorem eligible_flatMap_seq (w : DirectoryWalker) (root : Option FSDir)
    (h : ∀ t ∈ w.eligibleDirs root, t.2.listable = true) :
    (w.eligibleDirs root).flatMap (okFiles w) = seqFindMatchingFiles w root := by
  have hcongr : (w.eligibleDirs root).flatMap (okFiles w) =
      (w.eligibleDirs root).flatMap (fun t => seqScanFolder w t.1 t.2) :=
    List.flatMap_congr (fun t ht => okFiles_eq w t (h t ht))
  rw [hcongr]
  cases root with
  | none => simp [DirectoryWalker.eligibleDirs, rglobRoot, seqFindMatchingFiles]
  | some r =>
    show ((rglobDirs [w.base_path] r).filter (fun t => w.should_traverse t.2)).flatMap
      (fun t => seqScanFolder w t.1 t.2) = seqTraverse w [w.base_path] r
    exact (rglob_seq_aux w (sizeOf r)).1 r le_rfl [w.base_path]

theorem find_ok (w : DirectoryWalker) (root : Option FSDir) (order : List ScanTask)
    (hperm : order.Perm (w.eligibleDirs root))
    (hlist : ∀ t ∈ w.eligibleDirs root, t.2.listable = true) :
    w.find_matching_files root order =
      .ok ⟨order.flatMap (okFiles w),
        eventsFrom w (w.eligibleDirs root).length 0 (w.eligibleDirs root).length ++
          (if w.logging_enabled then [LogEvent.completed] else [])⟩ := by
  have horder : ∀ t ∈ order, t.2.listable = true := fun t ht =>
    hlist t (hperm.subset ht)
  simp only [DirectoryWalker.find_matching_files]
  rw [collectLoop_ok w (w.eligibleDirs root).length order horder 0 [] []]
  simp [hperm.length_eq]

theorem process_folder_fields (w1 w2 : DirectoryWalker)
    (hf : w1.file_pattern = w2.file_pattern)
    (he : w1.extension_pattern = w2.extension_pattern) :
    w1.process_folder = w2.process_folder := by
  funext path d
  simp only [DirectoryWalker.process_folder, hf, he]

theorem should_traverse_fields (w1 w2 : DirectoryWalker)
    (hp : w1.folder_patterns = w2.folder_patterns) :
    w1.should_traverse = w2.should_traverse := by
  funext d
  simp only [DirectoryWalker.should_traverse, hp]

theorem collectLoop_fields (w1 w2 : DirectoryWalker)
    (hf : w1.file_pattern = w2.file_pattern)
    (he : w1.extension_pattern = w2.extension_pattern)
    (hl : w1.logging_enabled = w2.logging_enabled) (total : Nat) :
    ∀ (order : List ScanTask) (processed : Nat) (acc : List String)
      (evs : List LogEvent),
    collectLoop w1 total order processed acc evs =
      collectLoop w2 total order processed acc evs := by
  intro order
  induction order with
  | nil => intro processed acc evs; rfl
  | cons t rest ih =>
    intro processed acc evs
    simp only [collectLoop, process_folder_fields w1 w2 hf he, hl]
    cases w2.process_folder t.1 t.2 with
    | error e => rfl
    | ok files => exact ih (processed + 1) (acc ++ files) _

theorem find_fields (w1 w2 : DirectoryWalker)
    (hb : w1.base_path = w2.base_path)
    (hp : w1.folder_patterns = w2.folder_patterns)
    (hf : w1.file_pattern = w2.file_pattern)
    (he : w1.extension_pattern = w2.extension_pattern)
    (hl : w1.logging_enabled = w2.logging_enabled) :
    w1.find_matching_files = w2.find_matching_files := by
  funext root order
  have helig : w1.eligibleDirs root = w2.eligibleDirs root := by
    simp only [DirectoryWalker.eligibleDirs, rglobRoot, hb,
      should_traverse_fields w1 w2 hp]
  simp only [DirectoryWalker.find_matching_files, helig,
    collectLoop_fields w1 w2 hf he hl, hl]

theorem compileAll_isOk_eq : ∀ fps : List String,
    (compileAll fps).isOk = fps.all (fun p => (Re.compile p).isOk) := by
  intro fps
  induction fps with
  | nil => simp [compileAll, Except.isOk, Except.toBool]
  | cons p rest ih =>
    simp only [compileAll, List.all_cons]
    cases hp : Re.compile p with
    | error e => simp [Except.isOk, Except.toBool, hp]
    | ok r =>
      cases hc : compileAll rest with
      | error e =>
        rw [hc] at ih
        simp only [hp, hc, Except.map]
        rw [← ih]
        simp [Except.isOk, Except.toBool]
      | ok l =>
        rw [hc] at ih
        simp only [hp, hc, Except.map]
        rw [← ih]
        simp [Except.isOk, Except.toBool]

theorem compileAll_ok_exists (fps : List String)
    (h : ∀ p ∈ fps, (Re.compile p).isOk = true) : ∃ l, compileAll fps = .ok l := by
  induction fps with
  | nil => exact ⟨[], rfl⟩
  | cons p rest ih =>
    obtain ⟨l, hl⟩ := ih (fun q hq => h q (by simp [hq]))
    have hp : (Re.compile p).isOk = true := h p (by simp)
    cases hpc : Re.compile p with
    | error e => rw [hpc] at hp; simp [Except.isOk, Except.toBool] at hp
    | ok r => exact ⟨r :: l, by simp [compileAll, hpc, hl, Except.map]⟩

theorem isOk_exists {ε α : Type} (x : Except ε α) (h : x.isOk = true) :
    ∃ a, x = .ok a := by
  cases x with
  | error e => simp [Except.isOk, Except.toBool] at h
  | ok a => exact ⟨a, rfl⟩

theorem init_threads (cpuCount : Int) (bp : String) (fps : List String)
    (fp : String) (ep : Option String) (th : Option Int) (lg : Bool)
    (w : DirectoryWalker)
    (h : DirectoryWalker.init cpuCount bp fps fp ep th lg = .ok w) :
    w.threads = pyOrInt th (max (cpuCount - 2) 1) := by
  cases hfc : compileAll fps with
  | error e => simp [DirectoryWalker.init, hfc] at h
  | ok l =>
    cases hf : Re.compile fp with
    | error e => simp [DirectoryWalker.init, hfc, hf] at h
    | ok r =>
      cases ep with
      | none =>
        simp only [DirectoryWalker.init, hfc, hf, Except.ok.injEq] at h
        rw [← h]
      | some s =>
        cases hs : Re.compile s with
        | error e => simp [DirectoryWalker.init, hfc, hf, hs, Except.map] at h
        | ok r2 =>
          simp only [DirectoryWalker.init, hfc, hf, hs, Except.map,
            Except.ok.injEq] at h
          rw [← h]

theorem init_ext_some (cpuCount : Int) (bp : String) (fps : List String)
    (fp : String) (s : String) (th : Option Int) (lg : Bool)
    (w : DirectoryWalker)
    (h : DirectoryWalker.init cpuCount bp fps fp (some s) th lg = .ok w) :
    ∃ r, Re.compile s = .ok r ∧ w.extension_pattern = some r := by
  cases hfc : compileAll fps with
  | error e => simp [DirectoryWalker.init, hfc] at h
  | ok l =>
    cases hf : Re.compile fp with
    | error e => simp [DirectoryWalker.init, hfc, hf] at h
    | ok r =>
      cases hs : Re.compile s with
      | error e => simp [DirectoryWalker.init, hfc, hf, hs, Except.map] at h
      | ok r2 =>
        simp only [DirectoryWalker.init, hfc, hf, hs, Except.map,
          Except.ok.injEq] at h
        exact ⟨r2, rfl, by rw [← h]⟩

theorem init_ext_none (cpuCount : Int) (bp : String) (fps : List String)
    (fp : String) (th : Option Int) (lg : Bool) (w : DirectoryWalker)
    (h : DirectoryWalker.init cpuCount bp fps fp none th lg = .ok w) :
    w.extension_pattern = none := by
  cases hfc : compileAll fps with
  | error e => simp [DirectoryWalker.init, hfc] at h
  | ok l =>
    cases hf : Re.compile fp with
    | error e => simp [DirectoryWalker.init, hfc, hf] at h
    | ok r =>
      simp only [DirectoryWalker.init, hfc, hf, Except.ok.injEq] at h
      rw [← h]

/-- C4: the folder-name filter gates only whether a directory's own files
are scanned, never recursive descent.  Any directory anywhere in the
enumeration whose name matches a folder pattern is dispatched, and its
matching files appear in the result; no condition on its ancestors'
names is required, so this holds in particular when every ancestor between
it and the base path fails to match. -/
theorem folder_filter_gates_scan_not_descent (w : DirectoryWalker)
    (root : Option FSDir) (order : List ScanTask) (t : ScanTask)
    (hperm : order.Perm (w.eligibleDirs root))
    (hlist : ∀ u ∈ w.eligibleDirs root, u.2.listable = true)
    (hmem : t ∈ rglobRoot w root)
    (hmatch : w.should_traverse t.2 = true) :
    t ∈ w.eligibleDirs root ∧
    ∃ r : RunResult, w.find_matching_files root order = .ok r ∧
      ∀ f ∈ okFiles w t, f ∈ r.matched := by
  have helig : t ∈ w.eligibleDirs root := List.mem_filter.mpr ⟨hmem, hmatch⟩
  refine ⟨helig, ⟨_, find_ok w root order hperm hlist, ?_⟩⟩
  intro f hf
  exact List.mem_flatMap.mpr ⟨t, hperm.mem_iff.mpr helig, hf⟩

/-- C4 witness, on the spec's own example: `data` sits beneath the
non-matching `misc`, is dispatched anyway, and `/root/misc/data/a.txt` is
returned. -/
theorem folder_filter_gates_scan_not_descent_witness :
    (wC4.find_matching_files (some treeC4) (wC4.eligibleDirs (some treeC4)) =
      .ok ⟨["/root/misc/data/a.txt"], []⟩) ∧
    ((["/root", "misc", "data"], FSDir.node "data" [] ["a.txt"] true) ∈
        wC4.eligibleDirs (some treeC4) ∧
      ∃ r : RunResult,
        wC4.find_matching_files (some treeC4) (wC4.eligibleDirs (some treeC4)) =
          .ok r ∧
        ∀ f ∈ okFiles wC4 (["/root", "misc", "data"],
          FSDir.node "data" [] ["a.txt"] true), f ∈ r.matched) :=
  ⟨by decide,
    folder_filter_gates_scan_not_descent wC4 (some treeC4)
      (wC4.eligibleDirs (some treeC4))
      (["/root", "misc", "data"], FSDir.node "data" [] ["a.txt"] true)
      (List.Perm.refl _) (by decide) (.tail _ (.head _)) (by decide)⟩

/-- C5: for every observed tree and every completion order of the
dispatched tasks, the result of `find_matching_files` is a permutation of —
hence equal as a set to — the purely sequential reference traversal with
the same predicates; and the `threads` field has no bearing on the result:
walkers differing only in worker count return identical values on the same
completion order. -/
theorem result_set_equals_sequential_reference (w : DirectoryWalker)
    (root : Option FSDir) (order : List ScanTask) (t1 t2 : Int)
    (hperm : order.Perm (w.eligibleDirs root))
    (hlist : ∀ u ∈ w.eligibleDirs root, u.2.listable = true) :
    (∃ r : RunResult, w.find_matching_files root order = .ok r ∧
      r.matched.Perm (seqFindMatchingFiles w root) ∧
      r.matched.toFinset = (seqFindMatchingFiles w root).toFinset) ∧
    DirectoryWalker.find_matching_files
        ⟨w.base_path, w.folder_patterns, w.file_pattern, w.extension_pattern,
          t1, w.logging_enabled⟩ root order =
      DirectoryWalker.find_matching_files
        ⟨w.base_path, w.folder_patterns, w.file_pattern, w.extension_pattern,
          t2, w.logging_enabled⟩ root order := by
  constructor
  · have hp : (order.flatMap (okFiles w)).Perm (seqFindMatchingFiles w root) := by
      have h1 := hperm.flatMap_right (okFiles w)
      rw [eligible_flatMap_seq w root hlist] at h1
      exact h1
    exact ⟨_, find_ok w root order hperm hlist, hp,
      List.toFinset_eq_of_perm _ _ hp⟩
  · rw [find_fields
      ⟨w.base_path, w.folder_patterns, w.file_pattern, w.extension_pattern,
        t1, w.logging_enabled⟩
      ⟨w.base_path, w.folder_patterns, w.file_pattern, w.extension_pattern,
        t2, w.logging_enabled⟩ rfl rfl rfl rfl rfl]

/-- C5 witness: a reversed completion order still yields the sequential
reference's result set, and worker counts 1 and 8 give identical results. -/
theorem result_set_equals_sequential_reference_witness :
    (∃ r : RunResult, wC5.find_matching_files (some treeC5)
        (wC5.eligibleDirs (some treeC5)).reverse = .ok r ∧
      r.matched.Perm (seqFindMatchingFiles wC5 (some treeC5)) ∧
      r.matched.toFinset = (seqFindMatchingFiles wC5 (some treeC5)).toFinset) ∧
    DirectoryWalker.find_matching_files
        ⟨wC5.base_path, wC5.folder_patterns, wC5.file_pattern,
          wC5.extension_pattern, 1, wC5.logging_enabled⟩ (some treeC5)
        (wC5.eligibleDirs (some treeC5)).reverse =
      DirectoryWalker.find_matching_files
        ⟨wC5.base_path, wC5.folder_patterns, wC5.file_pattern,
          wC5.extension_pattern, 8, wC5.logging_enabled⟩ (some treeC5)
        (wC5.eligibleDirs (some treeC5)).reverse :=
  result_set_equals_sequential_reference wC5 (some treeC5)
    (wC5.eligibleDirs (some treeC5)).reverse 1 8
    (List.reverse_perm _) (by decide)

/-- C6: a file entry of a scanned directory is included iff the file-name
pattern matches its name and the extension predicate is absent or matches
its dot-inclusive extension (`Path.suffix`); the included path is the
resolved absolute path of that entry. -/
theorem file_included_iff_name_and_extension_match (w : DirectoryWalker)
    (path : List String) (d : FSDir) (h : d.listable = true) :
    ∃ l, w.process_folder path d = .ok l ∧
      ∀ s : String, s ∈ l ↔ ∃ name ∈ d.files,
        (w.file_pattern.search name = true ∧
          ∀ pattern, w.extension_pattern = some pattern →
            pattern.search (pathSuffix name) = true) ∧
        s = renderPath (path ++ [name]) := by
  refine ⟨seqScanFolder w path d, process_folder_ok w (path, d) h, ?_⟩
  intro s
  simp only [seqScanFolder, List.mem_filterMap, specMatchesFile,
    Option.ite_none_right_eq_some, Option.some.injEq, Bool.and_eq_true]
  cases hep : w.extension_pattern with
  | none =>
    constructor
    · rintro ⟨name, hn, ⟨hf, _⟩, hs⟩
      exact ⟨name, hn, ⟨hf, fun pattern hpat => by simp at hpat⟩, hs.symm⟩
    · rintro ⟨name, hn, ⟨hf, _⟩, hs⟩
      exact ⟨name, hn, ⟨hf, rfl⟩, hs.symm⟩
  | some pat =>
    constructor
    · rintro ⟨name, hn, ⟨hf, hx⟩, hs⟩
      refine ⟨name, hn, ⟨hf, fun pattern hpat => ?_⟩, hs.symm⟩
      cases Option.some.injEq pat pattern ▸ hpat with
      | _ => exact (Option.some_inj.mp hpat) ▸ hx
    · rintro ⟨name, hn, ⟨hf, hx⟩, hs⟩
      exact ⟨name, hn, ⟨hf, hx pat rfl⟩, hs.symm⟩

/-- C6 witness: with extension pattern `\.py$`, `report.py` is included and
`report.pyc` is not — suffix matching is exact. -/
theorem file_included_iff_name_and_extension_match_witness :
    (wC6.process_folder ["/base", "data"]
        (FSDir.node "data" [] ["report.py", "report.pyc"] true) =
      .ok ["/base/data/report.py"]) ∧
    (∃ l, wC6.process_folder ["/base", "data"]
        (FSDir.node "data" [] ["report.py", "report.pyc"] true) = .ok l ∧
      ∀ s : String, s ∈ l ↔ ∃ name ∈
          (FSDir.node "data" [] ["report.py", "report.pyc"] true).files,
        (wC6.file_pattern.search name = true ∧
          ∀ pattern, wC6.extension_pattern = some pattern →
            pattern.search (pathSuffix name) = true) ∧
        s = renderPath (["/base", "data"] ++ [name])) :=
  ⟨by decide,
    file_included_iff_name_and_extension_match wC6 ["/base", "data"]
      (FSDir.node "data" [] ["report.py", "report.pyc"] true) rfl⟩

/-- C7: `should_traverse` is true iff at least one compiled folder pattern
`search`-matches the directory's base name (unanchored, OR across the
patterns); with an empty folder-pattern list no directory is ever eligible
and `find_matching_files` returns an empty result on any tree. -/
theorem should_traverse_any_unanchored_and_empty_patterns (w : DirectoryWalker) :
    (∀ folder : FSDir, w.should_traverse folder =
      w.folder_patterns.any (fun pattern => pattern.search folder.name)) ∧
    (w.folder_patterns = [] → ∀ (root : Option FSDir) (order : List ScanTask),
      order.Perm (w.eligibleDirs root) →
      w.find_matching_files root order =
        .ok ⟨[], if w.logging_enabled then [LogEvent.completed] else []⟩) := by
  refine ⟨fun _ => rfl, fun hempty root order hperm => ?_⟩
  have helig : w.eligibleDirs root = [] := by
    simp [DirectoryWalker.eligibleDirs, DirectoryWalker.should_traverse, hempty]
  rw [helig] at hperm
  rw [hperm.eq_nil]
  simp [DirectoryWalker.find_matching_files, collectLoop]

/-- C7 witness: with no folder patterns, a `data` folder is not eligible and
the whole call returns no matches on the example tree. -/
theorem should_traverse_any_unanchored_and_empty_patterns_witness :
    (wC7.should_traverse (FSDir.node "data" [] ["a.txt"] true) =
      wC7.folder_patterns.any (fun pattern => pattern.search
        (FSDir.node "data" [] ["a.txt"] true).name)) ∧
    wC7.find_matching_files (some treeC4) [] =
      .ok ⟨[], [LogEvent.completed]⟩ :=
  ⟨(should_traverse_any_unanchored_and_empty_patterns wC7).1 _,
    by
      have h := (should_traverse_any_unanchored_and_empty_patterns wC7).2
        (by decide) (some treeC4) [] (List.Perm.nil)
      simpa using h⟩

/-- C1 (counterexample): an unlistable dispatched directory does not yield
zero matches with the rest unaffected — the call aborts with the listing
error, instead of returning `["/root/data1/a.txt"]`, the result computed on
the same tree excluding the unlistable directory's contents (second
conjunct: the reference traversal of the tree with `data2` pruned). -/
theorem unlistable_folder_isolation_counterexample :
    (wC1.find_matching_files (some treeC1) (wC1.eligibleDirs (some treeC1)) =
      .error (OsError.cannotList ["/root", "data2"])) ∧
    seqFindMatchingFiles wC1
        (some (.node "root" [.node "data1" [] ["a.txt"] true] [] true)) =
      ["/root/data1/a.txt"] := by
  decide

/-- C1 (amended): when any dispatched directory cannot be listed, the
worker's exception is re-raised by `future.result()` and propagates out of
`find_matching_files`: the whole call aborts with the error; there is no
partial-failure isolation. -/
theorem unlistable_folder_aborts_call (w : DirectoryWalker) (root : Option FSDir)
    (order : List ScanTask) (t : ScanTask)
    (hperm : order.Perm (w.eligibleDirs root))
    (hmem : t ∈ w.eligibleDirs root) (hfail : t.2.listable = false) :
    ∃ e, w.find_matching_files root order = .error e := by
  obtain ⟨e, he⟩ := collectLoop_err w (w.eligibleDirs root).length order t
    (hperm.mem_iff.mpr hmem) hfail 0 [] []
  exact ⟨e, by simp [DirectoryWalker.find_matching_files, he]⟩

/-- C1 witness: the concrete unlistable `data2` aborts the call. -/
theorem unlistable_folder_aborts_call_witness :
    ∃ e, wC1.find_matching_files (some treeC1) (wC1.eligibleDirs (some treeC1)) =
      .error e :=
  unlistable_folder_aborts_call wC1 (some treeC1)
    (wC1.eligibleDirs (some treeC1))
    (["/root", "data2"], FSDir.node "data2" [] ["b.txt"] false)
    (List.Perm.refl _) (.tail _ (.head _)) rfl

/-- C2 (counterexample): construction with a base path that exists in no
filesystem succeeds — no `PathNotFoundError` (or any error) is raised
before dispatch — and the subsequent call on the missing base completes
normally with an empty result. -/
theorem missing_base_path_counterexample :
    (DirectoryWalker.init 4 "/does/not/exist" ["data"] ".*" none none
        false).isOk = true ∧
    (DirectoryWalker.init 4 "/does/not/exist" ["data"] ".*" none none
        false).map (fun w => w.find_matching_files none []) =
      .ok (.ok ⟨[], []⟩) := by
  decide

/-- C2 (amended): the constructor never inspects the filesystem — it
succeeds for ANY base path whenever every supplied pattern compiles (pattern
compilation is the only construction-time fatal condition, and no
`PathNotFoundError` exists); with a nonexistent base path the `rglob`
enumeration observes nothing, no task is dispatched, and
`find_matching_files` returns an empty result. -/
theorem init_never_validates_base_path (cpuCount : Int) (bp : String)
    (fps : List String) (fp : String) (ep : Option String) (th : Option Int)
    (lg : Bool)
    (hfps : ∀ p ∈ fps, (Re.compile p).isOk = true)
    (hfp : (Re.compile fp).isOk = true)
    (hep : ∀ s, ep = some s → (Re.compile s).isOk = true) :
    ∃ w, DirectoryWalker.init cpuCount bp fps fp ep th lg = .ok w ∧
      w.eligibleDirs none = [] ∧
      w.find_matching_files none [] =
        .ok ⟨[], if lg then [LogEvent.completed] else []⟩ := by
  obtain ⟨l, hl⟩ := compileAll_ok_exists fps hfps
  obtain ⟨r, hr⟩ := isOk_exists _ hfp
  cases ep with
  | none =>
    refine ⟨⟨bp, l, r, none, pyOrInt th (max (cpuCount - 2) 1), lg⟩, ?_, rfl, ?_⟩
    · simp [DirectoryWalker.init, hl, hr]
    · simp [DirectoryWalker.find_matching_files, collectLoop]
  | some s =>
    obtain ⟨r2, hr2⟩ := isOk_exists _ (hep s rfl)
    refine ⟨⟨bp, l, r, some r2, pyOrInt th (max (cpuCount - 2) 1), lg⟩, ?_, rfl, ?_⟩
    · simp [DirectoryWalker.init, hl, hr, hr2, Except.map]
    · simp [DirectoryWalker.find_matching_files, collectLoop]

/-- C2 witness: a concrete configuration over a missing base path. -/
theorem init_never_validates_base_path_witness :
    ∃ w, DirectoryWalker.init 4 "/missing" ["data"] ".*" none none false =
        .ok w ∧
      w.eligibleDirs none = [] ∧
      w.find_matching_files none [] =
        .ok ⟨[], if false then [LogEvent.completed] else []⟩ :=
  init_never_validates_base_path 4 "/missing" ["data"] ".*" none none false
    (by decide) (by decide) (by decide)

/-- C3 (counterexample): with `extension_pattern` NOT supplied, the file
`a.log` matches the file pattern yet is excluded — the omitted parameter
does not disable extension filtering, it applies the default `\.txt$`. -/
theorem absent_extension_no_filter_counterexample :
    ((DirectoryWalker.initDefaults 4 "/b" ["data"] ".*").map
      (fun w => w.file_pattern.search "a.log") = .ok true) ∧
    ((DirectoryWalker.initDefaults 4 "/b" ["data"] ".*").map
      (fun w => w.find_matching_files (some tree3)
        (w.eligibleDirs (some tree3))) =
      .ok (.ok ⟨[], [LogEvent.progress 1 1, LogEvent.completed]⟩)) := by
  decide

/-- C3 (amended): when `extension_pattern` is not supplied, the declared
default `r"\.txt$"` is compiled and used as the extension filter; extension
filtering is disabled only by passing `None` explicitly. -/
theorem omitted_extension_defaults_to_txt (cpuCount cpu2 : Int)
    (bp bp2 : String) (fps fps2 : List String) (fp fp2 : String)
    (th : Option Int) (lg : Bool) (w w2 : DirectoryWalker)
    (h1 : DirectoryWalker.initDefaults cpuCount bp fps fp = .ok w)
    (h2 : DirectoryWalker.init cpu2 bp2 fps2 fp2 none th lg = .ok w2) :
    (∃ r, Re.compile "\\.txt$" = .ok r ∧ w.extension_pattern = some r) ∧
    w2.extension_pattern = none :=
  ⟨init_ext_some cpuCount bp fps fp "\\.txt$" none true w h1,
    init_ext_none cpu2 bp2 fps2 fp2 th lg w2 h2⟩

/-- C3 witness: the concrete walkers carry the default `\.txt$` predicate
and `none` respectively. -/
theorem omitted_extension_defaults_to_txt_witness :
    (∃ r, Re.compile "\\.txt$" = .ok r ∧ wDef.extension_pattern = some r) ∧
    wNone.extension_pattern = none :=
  omitted_extension_defaults_to_txt 4 4 "/b" "/b" ["data"] ["data"] ".*" ".*"
    none true wDef wNone (by decide) (by decide)

/-- C8: construction succeeds iff every supplied pattern string (each folder
pattern, the file pattern, and the extension pattern when present) compiles;
equivalently, any compilation failure surfaces as the constructor's error.
The traversal functions consume the already-compiled walker and their error
type has no pattern-error constructor, so a compilation failure cannot be
deferred to traversal time. -/
theorem invalid_pattern_fails_at_construction (cpuCount : Int) (bp : String)
    (fps : List String) (fp : String) (ep : Option String) (th : Option Int)
    (lg : Bool) :
    (DirectoryWalker.init cpuCount bp fps fp ep th lg).isOk =
      (fps.all (fun p => (Re.compile p).isOk) && (Re.compile fp).isOk &&
        (match ep with
         | none => true
         | some s => (Re.compile s).isOk)) := by
  cases hfc : compileAll fps with
  | error e =>
    have hall : fps.all (fun p => (Re.compile p).isOk) = false := by
      rw [← compileAll_isOk_eq, hfc]; rfl
    have hinit : DirectoryWalker.init cpuCount bp fps fp ep th lg = .error e := by
      simp [DirectoryWalker.init, hfc]
    rw [hinit, hall]
    simp [Except.isOk, Except.toBool]
  | ok l =>
    have hall : fps.all (fun p => (Re.compile p).isOk) = true := by
      rw [← compileAll_isOk_eq, hfc]; rfl
    rw [hall]
    cases hf : Re.compile fp with
    | error e =>
      have hinit : DirectoryWalker.init cpuCount bp fps fp ep th lg =
          .error e := by
        simp [DirectoryWalker.init, hfc, hf]
      rw [hinit]
      simp [Except.isOk, Except.toBool]
    | ok r =>
      cases ep with
      | none =>
        have hinit : DirectoryWalker.init cpuCount bp fps fp none th lg =
            .ok ⟨bp, l, r, none, pyOrInt th (max (cpuCount - 2) 1), lg⟩ := by
          simp [DirectoryWalker.init, hfc, hf]
        rw [hinit]
        simp [Except.isOk, Except.toBool]
      | some s =>
        cases hs : Re.compile s with
        | error e2 =>
          have hinit : DirectoryWalker.init cpuCount bp fps fp (some s) th lg =
              .error e2 := by
            simp [DirectoryWalker.init, hfc, hf, hs, Except.map]
          rw [hinit]
          simp [Except.isOk, Except.toBool, hs]
        | ok r2 =>
          have hinit : DirectoryWalker.init cpuCount bp fps fp (some s) th lg =
              .ok ⟨bp, l, r, some r2, pyOrInt th (max (cpuCount - 2) 1),
                lg⟩ := by
            simp [DirectoryWalker.init, hfc, hf, hs, Except.map]
          rw [hinit]
          simp [Except.isOk, Except.toBool, hs]

/-- C9: with logging enabled, a successful run logs exactly one progress
event at completion number p iff p is a multiple of max(1, total // 10) —
the 10%-of-total boundary computed with integer division, guarded against
division by zero — and nothing at any other completion, followed by the
single completion message. -/
theorem progress_events_at_decile_boundaries (w : DirectoryWalker)
    (root : Option FSDir) (order : List ScanTask)
    (hperm : order.Perm (w.eligibleDirs root))
    (hlist : ∀ t ∈ w.eligibleDirs root, t.2.listable = true)
    (hlog : w.logging_enabled = true) :
    ∃ files, w.find_matching_files root order =
      .ok ⟨files,
        (List.range (w.eligibleDirs root).length).filterMap (fun i =>
          if (i + 1) % max 1 ((w.eligibleDirs root).length / 10) == 0 then
            some (LogEvent.progress (i + 1) (w.eligibleDirs root).length)
          else none) ++ [LogEvent.completed]⟩ := by
  refine ⟨order.flatMap (okFiles w), ?_⟩
  rw [find_ok w root order hperm hlist]
  rw [eventsFrom_range]
  simp [hlog]

/-- C9 witness: three eligible folders, progress at every completion since
max(1, 3 // 10) = 1, then the completion message. -/
theorem progress_events_at_decile_boundaries_witness :
    ∃ files, wC5.find_matching_files (some treeC5)
        (wC5.eligibleDirs (some treeC5)) =
      .ok ⟨files,
        (List.range (wC5.eligibleDirs (some treeC5)).length).filterMap (fun i =>
          if (i + 1) % max 1 ((wC5.eligibleDirs (some treeC5)).length / 10) == 0
          then
            some (LogEvent.progress (i + 1)
              (wC5.eligibleDirs (some treeC5)).length)
          else none) ++ [LogEvent.completed]⟩ :=
  progress_events_at_decile_boundaries wC5 (some treeC5)
    (wC5.eligibleDirs (some treeC5)) (List.Perm.refl _) (by decide) (by decide)

/-- C10: a falsy `threads` argument — `None` or `0` — silently selects the
default max(cpu_count - 2, 1); any nonzero value is kept as given. -/
theorem falsy_threads_selects_default (cpuCount : Int) (bp : String)
    (fps : List String) (fp : String) (ep : Option String) (lg : Bool)
    (t : Int) (w0 wN wt : DirectoryWalker) (ht : t ≠ 0)
    (h0 : DirectoryWalker.init cpuCount bp fps fp ep (some 0) lg = .ok w0)
    (hN : DirectoryWalker.init cpuCount bp fps fp ep none lg = .ok wN)
    (hT : DirectoryWalker.init cpuCount bp fps fp ep (some t) lg = .ok wt) :
    w0.threads = max (cpuCount - 2) 1 ∧ wN.threads = max (cpuCount - 2) 1 ∧
      wt.threads = t := by
  refine ⟨?_, ?_, ?_⟩
  · rw [init_threads _ _ _ _ _ _ _ _ h0]; simp [pyOrInt]
  · rw [init_threads _ _ _ _ _ _ _ _ hN]; simp [pyOrInt]
  · rw [init_threads _ _ _ _ _ _ _ _ hT]; simp [pyOrInt, ht]

/-- C10 witness: with cpu_count 6, threads 0 and None both resolve to 4,
threads 7 stays 7. -/
theorem falsy_threads_selects_default_witness :
    wT0.threads = max ((6 : Int) - 2) 1 ∧ wTN.threads = max ((6 : Int) - 2) 1 ∧
      wT7.threads = 7 :=
  falsy_threads_selects_default 6 "/r" ["data"] ".*" none false 7 wT0 wTN wT7
    (by decide) (by decide) (by decide) (by decide)
